import Mathlib

set_option maxRecDepth 8000

/-!
Verification of the DNS resolver in resolve.py (with resolve3.py as the
second variant of the same program).  The embedding models the module-level
state (answer_cache, authority_cache, active_lookups), the candidate
worklist, and the four functions load_initial_servers_to_query,
do_dns_query, resolve_dns_cname and lookup.  The network is an oracle
`Transport`; recursion is bounded by fuel, `none` meaning the Python
program does not return within any finite recursion budget.
-/

/-- A DNS label sequence as stored in the dnspython `Name.labels` field, e.g.
`["www", "example", "com", ""]` for `www.example.com.` (root label last).
The Python code keys both caches by these tuples, so cache-key equality is
exact (case-sensitive) tuple equality. -/
abbrev Labels := List String

/-- Record types used by the resolver (`dns.rdatatype` values). -/
inductive RType
  | A | AAAA | CNAME | MX | NS
  deriving DecidableEq

/-- Rdata of one resource record: an address (A/AAAA), a name target
(CNAME/NS), or an MX pair. -/
inductive RData
  | addr (a : String)
  | target (t : Labels)
  | mxdata (preference : Nat) (exchange : Labels)
  deriving DecidableEq

/-- One rrset of a DNS response section: owner name, type, items. -/
structure RRset where
  name : Labels
  rdtype : RType
  items : List RData
  deriving DecidableEq

/-- The three record sections of a parsed DNS response. -/
structure Response where
  answer : List RRset
  authority : List RRset
  additional : List RRset
  deriving DecidableEq

/-- Outcome of one `dns.query.udp` call: a parsed response, a timeout
(`dns.exception.Timeout`), or a `ValueError` — the two exception classes
resolve.py catches (resolve.py:155-158). -/
inductive TransportResult
  | ok (r : Response)
  | timeout
  | valueError
  deriving DecidableEq

/-- The transport adapter: a fixed oracle from (query name, query type,
server address) to an outcome. -/
abbrev Transport := Labels → RType → String → TransportResult

/-- One transport round trip, tagged with the id of the `lookup`
activation that issued it (ghost instrumentation; behaviour never
depends on it). -/
structure Ev where
  callId : Nat
  qname : Labels
  qtype : RType
  server : String
  deriving DecidableEq

/-- The module-level mutable state of resolve.py: `answer_cache` (dict of
dicts keyed by label tuples), `authority_cache` (dict keyed by label
tuples), `active_lookups` (a set of dnspython Names, whose equality is
case-insensitive), plus a ghost trace of transport calls (most recent
first) and a ghost counter for activation ids. -/
structure RState where
  answer_cache : List (Labels × List (RType × List RData))
  authority_cache : List (Labels × List Labels)
  active_lookups : List Labels
  trace : List Ev
  nextId : Nat
  deriving DecidableEq

/-- Python dict lookup over an association list (first binding wins;
a dict has at most one binding per key). -/
def dictFind {α β : Type} [DecidableEq α] : List (α × β) → α → Option β
  | [], _ => none
  | (k, v) :: r, k' => if k = k' then some v else dictFind r k'

/-- Python dict assignment: replace the binding if the key is present,
otherwise append it. -/
def dictInsert {α β : Type} [DecidableEq α] : List (α × β) → α → β → List (α × β)
  | [], k, v => [(k, v)]
  | (k', v') :: r, k, v =>
    if k' = k then (k, v) :: r else (k', v') :: dictInsert r k v

/-- Two-level dict lookup: `answer_cache[n][t]` when both keys exist. -/
def dictFind2 (ac : List (Labels × List (RType × List RData))) (n : Labels)
    (t : RType) : Option (List RData) :=
  (dictFind ac n).bind fun inner => dictFind inner t

/-- The Python `if n not in ac: ac[n] = {}` followed by `ac[n][t] = v`. -/
def dictInsert2 (ac : List (Labels × List (RType × List RData))) (n : Labels)
    (t : RType) (v : List RData) : List (Labels × List (RType × List RData)) :=
  match dictFind ac n with
  | some inner => dictInsert ac n (dictInsert inner t v)
  | none => dictInsert ac n [(t, v)]

/-- The Python `if n not in ac: ac[n] = {}` (resolve.py:134-135), which runs
even when the response carries no answer rrsets. -/
def ensureKey (ac : List (Labels × List (RType × List RData))) (n : Labels) :
    List (Labels × List (RType × List RData)) :=
  match dictFind ac n with
  | some _ => ac
  | none => dictInsert ac n []

/-- ASCII-lowercased character codes of a label; dnspython lowercases label
bytes for Name equality and hashing. -/
def lowerStr (s : String) : List Nat :=
  s.data.map fun c =>
    if 65 ≤ c.toNat ∧ c.toNat ≤ 90 then c.toNat + 32 else c.toNat

/-- ASCII-lowercased codes of a whole label sequence. -/
def lowerLabels (l : Labels) : List (List Nat) := l.map lowerStr

/-- Case-insensitive name equality, as used by the `active_lookups` set of
dnspython Names. -/
def nameEqb (a b : Labels) : Bool := decide (lowerLabels a = lowerLabels b)

/-- Membership in `active_lookups` (a Python set of dnspython Names, so
case-insensitive). -/
def activeMemb (act : List Labels) (n : Labels) : Bool :=
  act.any fun x => nameEqb x n

/-- `active_lookups.add(n)` (set insert: no duplicate members). -/
def addActive (s : RState) (n : Labels) : RState :=
  if activeMemb s.active_lookups n then s
  else { s with active_lookups := n :: s.active_lookups }

/-- `active_lookups.discard(n)`. -/
def discardActive (s : RState) (n : Labels) : RState :=
  { s with active_lookups := s.active_lookups.filter fun x => !(nameEqb x n) }

/-- The static root-hint address table (resolve.py:20-32). -/
def ROOT_SERVERS : List String :=
  ["198.41.0.4", "199.9.14.201", "192.33.4.12", "199.7.91.13",
   "192.203.230.10", "192.5.5.241", "192.112.36.4", "198.97.190.53",
   "192.36.148.17", "192.58.128.30", "193.0.14.129", "199.7.83.42",
   "202.12.27.33"]

/-- A worklist candidate: the second component of a `(rdtype, value)` pair
pushed onto `servers_to_query`.  The Python value is dynamically typed: a
literal address string (root hints), a dnspython Name (authority records,
resolve.py:100 and 152-154), or a whole cached rrset/list pushed by
resolve.py:101-109. -/
inductive Cand
  | byAddr (a : String)
  | byName (n : Labels)
  | byEntry (e : List RData)
  deriving DecidableEq

/-- Root-hint candidates `(rdatatype.A, server)` (resolve.py:110-112). -/
def rootCands : List (RType × Cand) :=
  ROOT_SERVERS.map fun a => (RType.A, Cand.byAddr a)

/-- The ancestor domains scanned by resolve.py:96-97: suffixes
`labels[i+1:]` for `i in reversed(range(len(labels) - 2))`, i.e. from the
root-most proper ancestor inward to the immediate parent. -/
def ancestorLevels (n : Labels) : List Labels :=
  ((List.range (n.length - 2)).reverse).map fun i => n.drop (i + 1)

/-- The candidates one ancestor domain contributes (the body of the loop
at resolve.py:96-109): every authority-cache server of the domain, then a
cached A entry, else a cached CNAME entry (each pushed whole). -/
def levelCands (s : RState) (d : Labels) : List (RType × Cand) :=
  (match dictFind s.authority_cache d with
   | some servers => servers.map fun nm => (RType.CNAME, Cand.byName nm)
   | none => []) ++
  (match dictFind s.answer_cache d with
   | some inner =>
     match dictFind inner RType.A with
     | some e => [(RType.A, Cand.byEntry e)]
     | none =>
       match dictFind inner RType.CNAME with
       | some e => [(RType.CNAME, Cand.byEntry e)]
       | none => []
   | none => [])

/-- resolve.py:88-113 `load_initial_servers_to_query`: collect candidates
from every cached ancestor level (farthest first), falling back to the
root hints when nothing was collected.  The list is in Python append
order; the caller pops from the end. -/
def load_initial_servers_to_query (s : RState) (n : Labels) :
    List (RType × Cand) :=
  let cands := (ancestorLevels n).foldl (fun acc d => acc ++ levelCands s d) []
  if cands = [] then rootCands else cands

/-- resolve.py:116-158 `do_dns_query`: one transport call (the trace event
records the round trip, timeouts included), then on success cache the
answer section under the query name, the additional section under the
owner name of each rrset, and each non-empty NS authority rrset into the
authority cache while pushing its targets as new `(CNAME, name)`
candidates.  Returns the new state and the pushed candidates in pop
order (most recently appended first). -/
def do_dns_query (T : Transport) (myId : Nat) (s : RState) (n : Labels)
    (t : RType) (server : String) : RState × List (RType × Cand) :=
  let s1 := { s with
    trace := { callId := myId, qname := n, qtype := t, server := server } :: s.trace }
  match T n t server with
  | .timeout => (s1, [])
  | .valueError => (s1, [])
  | .ok resp =>
    let ac0 := ensureKey s1.answer_cache n
    let ac1 := resp.answer.foldl (fun ac rr => dictInsert2 ac n rr.rdtype rr.items) ac0
    let ac2 := resp.additional.foldl
      (fun ac rr => dictInsert2 ac rr.name rr.rdtype rr.items) ac1
    let step := fun (p : List (Labels × List Labels) × List (RType × Cand)) (rr : RRset) =>
      if rr.rdtype = RType.NS ∧ rr.items ≠ [] then
        -- NS rdata always carries a target name
        let tgts := rr.items.filterMap fun d =>
          match d with | .target tg => some tg | _ => none
        (dictInsert p.1 rr.name tgts,
         tgts.foldl (fun cs tg => (RType.CNAME, Cand.byName tg) :: cs) p.2)
      else p
    let auth := resp.authority.foldl step (s1.authority_cache, [])
    ({ s1 with answer_cache := ac2, authority_cache := auth.1 }, auth.2)

/-- The message value `lookup` returns: only its answer section matters to
the program (a list of rrset item lists; empty for a negative result). -/
structure Msg where
  answer : List (List RData)
  deriving DecidableEq

/-- Result of a call: a returned message with the post-state, or a raised
Python exception with the state at the raise.  `Option` around it encodes
fuel: `none` means the call does not return within the given recursion
budget. -/
inductive LOut
  | ok (m : Msg) (s : RState)
  | err (s : RState)
  deriving DecidableEq

/-- Result of `resolve_dns_cname`: the resolved address string (possibly
`""`) or a propagated exception. -/
inductive COut
  | ok (a : String) (s : RState)
  | err (s : RState)
  deriving DecidableEq

/-- Python `str(rdata)`: an address prints as itself, a name target as its
dotted text. -/
def rdataStr : RData → String
  | .addr a => a
  | .target t => String.intercalate "." t
  | .mxdata p e => toString p ++ " " ++ String.intercalate "." e

/-- resolve.py:161-178 `resolve_dns_cname`, parameterised by the nested
`lookup` it calls.  The glue fast path at resolve.py:169 tests
`server in answer_cache` with `server` a dnspython Name against keys that
are label tuples; in Python a Name never compares equal to a tuple, so
the branch is dead code and the function always proceeds to the nested
lookup.  The guard is discarded only on the return path, matching the
absence of a `finally`. -/
def resolve_dns_cnameF (lk : RState → Labels → RType → Option LOut)
    (s : RState) (server : Labels) : Option COut :=
  if activeMemb s.active_lookups server then some (.ok "" s)
  else
    match lk (addActive s server) server RType.A with
    | none => none
    | some (.err s2) => some (.err s2)
    | some (.ok m s2) =>
      let s3 := discardActive s2 server
      match m.answer with
      | [] => some (.ok "" s3)
      | [] :: _ => some (.err s3)
      | (d :: _) :: _ => some (.ok (rdataStr d) s3)

/-- resolve.py:229-232: cache the explicit negative marker `[]` under
`(name, qtype)` when the worklist is exhausted. -/
def writeNeg (s : RState) (n : Labels) (t : RType) : RState :=
  { s with answer_cache := dictInsert2 s.answer_cache n t [] }

/-- Decision taken by the cache check at the top of each loop iteration
(resolve.py:194-211). -/
inductive CacheAct
  | hit (e : List RData)
  | chase (tgt : Labels)
  | chaseBad
  | miss
  deriving DecidableEq

/-- resolve.py:194-211: an exact `(name, qtype)` entry returns it; absent
that, a non-empty cached CNAME entry is chased (its first rdata must be a
name target, anything else would raise); otherwise fall through to the
pop step. -/
def cacheCheck (ac : List (Labels × List (RType × List RData))) (n : Labels)
    (t : RType) : CacheAct :=
  match dictFind ac n with
  | some inner =>
    match dictFind inner t with
    | some e => .hit e
    | none =>
      match dictFind inner RType.CNAME with
      | some (RData.target tg :: _) => .chase tg
      | some (RData.addr _ :: _) => .chaseBad
      | some (RData.mxdata _ _ :: _) => .chaseBad
      | some [] => .miss
      | none => .miss
  | none => .miss

/-- The query loop of resolve.py:193-228, parameterised by the nested
`lookup` (used for the alias chase and for `resolve_dns_cname`).  The
worklist is kept in pop order (head = next candidate).  A `(CNAME, name)`
candidate is resolved via `resolve_dns_cname`; an empty address drops the
candidate.  An address already in `queried_servers` is dropped (dedup);
otherwise it is recorded and queried.  A `CNAME`-tagged candidate
carrying a bare address or a whole rrset, and a non-`CNAME` candidate
carrying anything but an address string, would make Python hand a
non-name to `lookup`/`dns.query.udp` outside any handled exception class,
so those paths raise.  The alias chase at the top recurses with no guard
against revisiting a name, exactly as resolve.py:201-211. -/
def queryLoopF (lk : RState → Labels → RType → Option LOut) (T : Transport) :
    Nat → Nat → RState → Labels → RType → List (RType × Cand) →
    List String → Option LOut
  | 0, _, _, _, _, _, _ => none
  | fuel + 1, myId, s, n, t, wl, queried =>
    match wl with
    | [] => some (.ok { answer := [] } (writeNeg s n t))
    | (tag, c) :: rest =>
      match cacheCheck s.answer_cache n t with
      | .hit e => some (.ok { answer := if e = [] then [] else [e] } s)
      | .chase tgt =>
        (match lk (addActive s n) tgt t with
         | none => none
         | some (.err s2) => some (.err s2)
         | some (.ok m s2) => some (.ok m (discardActive s2 n)))
      | .chaseBad => some (.err s)
      | .miss =>
        if tag = RType.CNAME then
          match c with
          | .byName nm =>
            match resolve_dns_cnameF lk s nm with
            | none => none
            | some (.err s2) => some (.err s2)
            | some (.ok a s2) =>
              if a = "" then queryLoopF lk T fuel myId s2 n t rest queried
              else
                if a ∈ queried then queryLoopF lk T fuel myId s2 n t rest queried
                else
                  let r := do_dns_query T myId s2 n t a
                  queryLoopF lk T fuel myId r.1 n t (r.2 ++ rest) (queried ++ [a])
          | .byAddr _ => some (.err s)
          | .byEntry _ => some (.err s)
        else
          match c with
          | .byAddr a =>
            if a ∈ queried then queryLoopF lk T fuel myId s n t rest queried
            else
              let r := do_dns_query T myId s n t a
              queryLoopF lk T fuel myId r.1 n t (r.2 ++ rest) (queried ++ [a])
          | .byName _ => some (.err s)
          | .byEntry _ => some (.err s)

/-- resolve.py:181-233 `lookup`: seed the worklist, then run the query
loop; fuel bounds both loop iterations and nesting depth.  The ghost
activation id is taken from the state counter. -/
def lookup (T : Transport) : Nat → RState → Labels → RType → Option LOut
  | 0, _, _, _ => none
  | fuel + 1, s, n, t =>
    let myId := s.nextId
    let s1 := { s with nextId := myId + 1 }
    queryLoopF (lookup T fuel) T (fuel + 1) myId s1 n t
      (load_initial_servers_to_query s1 n).reverse []

/-- The empty initial state: fresh caches, no active lookups. -/
def initState : RState :=
  { answer_cache := [], authority_cache := [], active_lookups := [],
    trace := [], nextId := 0 }

/-- A transport on which every query times out. -/
def deadTransport : Transport := fun _ _ _ => .timeout

/-- The state a returned-or-raised call leaves behind. -/
def LOut.state : LOut → RState
  | .ok _ s => s
  | .err s => s

/-- Whether a bounded run returned a message (no exception, fuel enough). -/
def resOk : Option LOut → Bool
  | some (.ok _ _) => true
  | _ => false

/-- The message of a bounded run (the empty message when it did not return). -/
def resMsg : Option LOut → Msg
  | some (.ok m _) => m
  | _ => { answer := [] }

/-- The final state of a bounded run (the initial state when out of fuel). -/
def resState : Option LOut → RState
  | some (.ok _ s) => s
  | some (.err s) => s
  | none => initState

/-- The state a `resolve_dns_cname` call leaves behind. -/
def cState : COut → RState
  | .ok _ s => s
  | .err s => s

/-- State extension by a call that only appends events tagged with fresh
activation ids (at or above the starting counter). -/
def FreshExt (s s' : RState) : Prop :=
  s.nextId ≤ s'.nextId ∧ ∃ new, s'.trace = new ++ s.trace ∧
    ∀ e ∈ new, s.nextId ≤ e.callId

/-- State extension by loop steps of activation `myId`: appended events are
the own events of the loop (id `myId`) or events of fresh nested activations. -/
def LoopExt (myId : Nat) (s s' : RState) : Prop :=
  s.nextId ≤ s'.nextId ∧ ∃ new, s'.trace = new ++ s.trace ∧
    ∀ e ∈ new, e.callId = myId ∨ s.nextId ≤ e.callId

/-- Number of trace events issued by activation `i` to address `a`. -/
def countQ (tr : List Ev) (i : Nat) (a : String) : Nat :=
  (tr.filter fun e => decide (e.callId = i ∧ e.server = a)).length

/-- Number of times an address occurs in a queried-servers list. -/
def countS (q : List String) (a : String) : Nat :=
  (q.filter fun x => decide (x = a)).length

/-- Every recorded event belongs to an already-used activation id. -/
def idsBelow (tr : List Ev) (k : Nat) : Prop := ∀ e ∈ tr, e.callId < k

/-- A nested-lookup function that bumps the activation counter and only
appends fresh-tagged events (the ghost-id discipline of `lookup`). -/
def FreshLk (lk : RState → Labels → RType → Option LOut) : Prop :=
  ∀ s n t r, lk s n t = some r →
    s.nextId < (LOut.state r).nextId ∧
    ∃ new, (LOut.state r).trace = new ++ s.trace ∧
      ∀ e ∈ new, s.nextId ≤ e.callId

/-- The candidate collection of `load_initial_servers_to_query` before the
root-hint fallback, written declaratively. -/
def collectLevels (s : RState) (n : Labels) : List (RType × Cand) :=
  ((ancestorLevels n).map (levelCands s)).flatten

/- Concrete scenario data used by the claim theorems. -/

/-- example.com. -/
def exL : Labels := ["example", "com", ""]

/-- com. -/
def comL : Labels := ["com", ""]

/-- a.gtld-servers.net. -/
def gtldL : Labels := ["a", "gtld-servers", "net", ""]

/-- ns1.example.com. -/
def ns1L : Labels := ["ns1", "example", "com", ""]

/-- host.example.com. -/
def hostL : Labels := ["host", "example", "com", ""]

/-- End-to-end referral-chain transport: a root server refers to .com with
glue for a.gtld-servers.net, the TLD server refers to example.com with
glue for ns1.example.com, and ns1.example.com answers the A query. -/
def T8 : Transport := fun n t srv =>
  if n = exL ∧ t = RType.A ∧ srv = "202.12.27.33" then
    .ok { answer := [], additional := [⟨gtldL, RType.A, [.addr "192.5.6.30"]⟩],
          authority := [⟨comL, RType.NS, [.target gtldL]⟩] }
  else if n = exL ∧ t = RType.A ∧ srv = "192.5.6.30" then
    .ok { answer := [], additional := [⟨ns1L, RType.A, [.addr "10.0.0.1"]⟩],
          authority := [⟨exL, RType.NS, [.target ns1L]⟩] }
  else if n = exL ∧ t = RType.A ∧ srv = "10.0.0.1" then
    .ok { answer := [⟨exL, RType.A, [.addr "93.184.216.34"]⟩], additional := [],
          authority := [] }
  else .timeout

/-- State with a cached delegation for example.com and glue for its single
nameserver, so that host.example.com seeds a one-candidate worklist. -/
def s10 : RState :=
  { answer_cache := [(ns1L, [(RType.A, [.addr "10.0.0.1"])])],
    authority_cache := [(exL, [ns1L])],
    active_lookups := [], trace := [], nextId := 0 }

/-- Transport on which the one candidate answers the query correctly. -/
def T10 : Transport := fun n t srv =>
  if n = hostL ∧ t = RType.A ∧ srv = "10.0.0.1" then
    .ok { answer := [⟨hostL, RType.A, [.addr "1.2.3.4"]⟩], additional := [],
          authority := [] }
  else .timeout

/-- host.x.com. -/
def xHostL : Labels := ["host", "x", "com", ""]

/-- x.com., a zone whose only nameserver lies inside itself. -/
def xZoneL : Labels := ["x", "com", ""]

/-- ns.x.com., the glue-less in-zone nameserver. -/
def nsxL : Labels := ["ns", "x", "com", ""]

/-- Transport for the self-referential delegation: every root query for
host.x.com is answered with an NS referral to ns.x.com without glue. -/
def T3 : Transport := fun n _ _ =>
  if n = xHostL then
    .ok { answer := [], additional := [],
          authority := [⟨xZoneL, RType.NS, [.target nsxL]⟩] }
  else .timeout

/-- State whose active-lookup set already contains ns.x.com. -/
def sW3 : RState :=
  { answer_cache := [], authority_cache := [], active_lookups := [nsxL],
    trace := [], nextId := 0 }

/-- a.test. -/
def aLbl : Labels := ["a", "test", ""]

/-- b.test. -/
def bLbl : Labels := ["b", "test", ""]

/-- Record cache forming a two-name CNAME cycle: a.test aliased to b.test
and b.test aliased back to a.test. -/
def sCyc : RState :=
  { answer_cache := [(aLbl, [(RType.CNAME, [.target bLbl])]),
                     (bLbl, [(RType.CNAME, [.target aLbl])])],
    authority_cache := [], active_lookups := [], trace := [], nextId := 0 }

/-- c.loop. -/
def cLbl : Labels := ["c", "loop", ""]

/-- d.loop. -/
def dLbl : Labels := ["d", "loop", ""]

/-- A second CNAME cycle, used for the never-raises claim. -/
def sCyc2 : RState :=
  { answer_cache := [(cLbl, [(RType.CNAME, [.target dLbl])]),
                     (dLbl, [(RType.CNAME, [.target cLbl])])],
    authority_cache := [], active_lookups := [], trace := [], nextId := 0 }

/-- www.example.com. -/
def n6 : Labels := ["www", "example", "com", ""]

/-- cdn.example.com. -/
def m6 : Labels := ["cdn", "example", "com", ""]

/-- State with www.example.com cached as a CNAME to cdn.example.com. -/
def s6 : RState :=
  { answer_cache := [(n6, [(RType.CNAME, [.target m6])])],
    authority_cache := [], active_lookups := [], trace := [], nextId := 0 }

/-- Transport whose answer for cdn.example.com carries an additional-section
A record owned by www.example.com itself. -/
def T6 : Transport := fun n t srv =>
  if n = m6 ∧ t = RType.A ∧ srv = "202.12.27.33" then
    .ok { answer := [⟨m6, RType.A, [.addr "1.2.3.4"]⟩],
          additional := [⟨n6, RType.A, [.addr "9.9.9.9"]⟩], authority := [] }
  else .timeout

/-- State with a record cached directly for a (name, type) pair, used to
witness the amended idempotence claim. -/
def sW6 : RState :=
  { answer_cache := [(exL, [(RType.A, [.addr "1.2.3.4"])])],
    authority_cache := [], active_lookups := [], trace := [], nextId := 0 }

/-- EXAMPLE.com. with an upper-case first label. -/
def upE : Labels := ["EXAMPLE", "com", ""]

/-- example.com., all lower case. -/
def loE : Labels := ["example", "com", ""]

/-- State with an A record cached under the upper-case spelling. -/
def s9 : RState :=
  { answer_cache := [(upE, [(RType.A, [.addr "9.9.9.9"])])],
    authority_cache := [], active_lookups := [], trace := [], nextId := 0 }

/-- State with authority-cache entries for two nested ancestor zones of
host.example.com: com. (farther) and example.com. (nearer). -/
def s4 : RState :=
  { answer_cache := [], authority_cache := [(comL, [gtldL]), (exL, [ns1L])],
    active_lookups := [], trace := [], nextId := 0 }

theorem dictFind_insert_self {α β : Type} [DecidableEq α] (d : List (α × β)) (k : α) (v : β) :
    dictFind (dictInsert d k v) k = some v := by
  induction d with
  | nil => simp [dictInsert, dictFind]
  | cons p r ih =>
    obtain ⟨k', v'⟩ := p
    by_cases h : k' = k
    · subst h; simp [dictInsert, dictFind]
    · simp [dictInsert, dictFind, h, ih]

theorem dictFind2_insert2_self (ac : List (Labels × List (RType × List RData)))
    (n : Labels) (t : RType) (v : List RData) :
    dictFind2 (dictInsert2 ac n t v) n t = some v := by
  unfold dictInsert2 dictFind2
  cases h : dictFind ac n with
  | some inner => simp [dictFind_insert_self]
  | none => simp [dictFind_insert_self, dictFind]

theorem rootCands_ne_nil : rootCands ≠ [] := by decide

theorem load_initial_ne_nil (s : RState) (n : Labels) :
    load_initial_servers_to_query s n ≠ [] := by
  show (if List.foldl (fun acc d => acc ++ levelCands s d) [] (ancestorLevels n) = []
      then rootCands else List.foldl (fun acc d => acc ++ levelCands s d) [] (ancestorLevels n)) ≠ []
  split
  · exact rootCands_ne_nil
  · next h => exact h

theorem addActive_answer_cache (s : RState) (n : Labels) :
    (addActive s n).answer_cache = s.answer_cache := by
  unfold addActive; split <;> rfl

theorem cacheCheck_hit (ac : List (Labels × List (RType × List RData)))
    (n : Labels) (t : RType) (e : List RData) (h : dictFind2 ac n t = some e) :
    cacheCheck ac n t = .hit e := by
  unfold dictFind2 at h
  unfold cacheCheck
  cases hf : dictFind ac n with
  | none => simp [hf] at h
  | some inner =>
    simp only [hf, Option.some_bind] at h
    simp [h]

theorem lookup_cache_hit (T : Transport) (fuel : Nat) (s : RState) (n : Labels)
    (t : RType) (e : List RData) (h : dictFind2 s.answer_cache n t = some e) :
    lookup T (fuel + 1) s n t =
      some (.ok { answer := if e = [] then [] else [e] }
        { s with nextId := s.nextId + 1 }) := by
  have hne := load_initial_ne_nil { s with nextId := s.nextId + 1 } n
  have hrne : (load_initial_servers_to_query { s with nextId := s.nextId + 1 } n).reverse ≠ [] := by
    simpa [List.reverse_eq_nil_iff] using hne
  obtain ⟨⟨tag, c⟩, r, hcr⟩ := List.exists_cons_of_ne_nil hrne
  have hcc : cacheCheck ({ s with nextId := s.nextId + 1 } : RState).answer_cache n t = .hit e :=
    cacheCheck_hit _ _ _ _ h
  simp only [lookup]
  rw [hcr]
  simp only [queryLoopF, hcc]

theorem lookup_chase_step (T : Transport) (fuel : Nat) (s : RState)
    (n tgt : Labels) (t : RType)
    (h : cacheCheck s.answer_cache n t = .chase tgt)
    (hnone : lookup T fuel (addActive { s with nextId := s.nextId + 1 } n) tgt t = none) :
    lookup T (fuel + 1) s n t = none := by
  have hne := load_initial_ne_nil { s with nextId := s.nextId + 1 } n
  have hrne : (load_initial_servers_to_query { s with nextId := s.nextId + 1 } n).reverse ≠ [] := by
    simpa [List.reverse_eq_nil_iff] using hne
  obtain ⟨⟨tag, c⟩, r, hcr⟩ := List.exists_cons_of_ne_nil hrne
  have hcc : cacheCheck ({ s with nextId := s.nextId + 1 } : RState).answer_cache n t = .chase tgt := h
  simp only [lookup]
  rw [hcr]
  simp only [queryLoopF, hcc, hnone]

theorem cname_cycle_diverges (T : Transport) (aN bN : Labels) (t : RType) :
    ∀ fuel (s : RState), cacheCheck s.answer_cache aN t = .chase bN →
      cacheCheck s.answer_cache bN t = .chase aN →
      lookup T fuel s aN t = none ∧ lookup T fuel s bN t = none := by
  intro fuel
  induction fuel with
  | zero => intro s _ _; exact ⟨rfl, rfl⟩
  | succ f ih =>
    intro s ha hb
    refine ⟨lookup_chase_step T f s aN bN t ha ?_, lookup_chase_step T f s bN aN t hb ?_⟩
    · exact (ih _ (by rw [addActive_answer_cache]; exact ha)
        (by rw [addActive_answer_cache]; exact hb)).2
    · exact (ih _ (by rw [addActive_answer_cache]; exact ha)
        (by rw [addActive_answer_cache]; exact hb)).1

/-- C1: a CNAME cycle in the record cache (a.test aliased to b.test and
back) makes `lookup(a.test, A)` recurse through the alias chase without
consulting the recursion guard, so it does not return within any recursion
budget — the chase never aborts with a cycle condition, refuting the
claimed cycle protection. -/
theorem claim1_thm : ∀ fuel, lookup deadTransport fuel sCyc aLbl RType.A = none :=
  fun fuel =>
    (cname_cycle_diverges deadTransport aLbl bLbl RType.A fuel sCyc
      (by decide) (by decide)).1

/-- C2: with a CNAME cycle in the record cache, `lookup(c.loop, MX)` does
not return a message for any recursion budget (in Python the unbounded
recursion raises RecursionError), refuting the claim that lookup always
returns a message without raising during normal operation. -/
theorem claim2_thm : ∀ fuel, lookup deadTransport fuel sCyc2 cLbl RType.MX = none :=
  fun fuel =>
    (cname_cycle_diverges deadTransport cLbl dLbl RType.MX fuel sCyc2
      (by decide) (by decide)).1

/-- C5: when the worklist empties, the loop caches the explicit negative
marker under (name, qtype) and returns an empty-answer message; a repeated
lookup after that exhaustion is a pure cache hit that returns an empty
answer and leaves the transport trace unchanged (zero transport calls). -/
theorem claim5_thm (lk : RState → Labels → RType → Option LOut)
    (T : Transport) (fuel f2 myId : Nat) (s : RState) (n : Labels) (t : RType)
    (q : List String) :
    queryLoopF lk T (fuel + 1) myId s n t [] q =
      some (.ok { answer := [] } (writeNeg s n t)) ∧
    dictFind2 (writeNeg s n t).answer_cache n t = some [] ∧
    lookup T (f2 + 1) (writeNeg s n t) n t =
      some (.ok { answer := [] }
        { writeNeg s n t with nextId := (writeNeg s n t).nextId + 1 }) ∧
    ({ writeNeg s n t with nextId := (writeNeg s n t).nextId + 1 } : RState).trace = s.trace := by
  have h2 : dictFind2 (writeNeg s n t).answer_cache n t = some [] := by
    unfold writeNeg
    exact dictFind2_insert2_self _ _ _ _
  refine ⟨rfl, h2, ?_, rfl⟩
  have h3 := lookup_cache_hit T f2 (writeNeg s n t) n t [] h2
  simpa using h3

/-- C6 amended: if after the first call the record cache holds an entry
for (name, type) whose answer equals the first result, the immediately
repeated lookup issues zero transport calls and returns the identical
message, leaving the state unchanged apart from the ghost activation
counter. -/
theorem claim6_amended_thm (T : Transport) (fuel1 fuel2 : Nat) (s s' : RState)
    (n : Labels) (t : RType) (m : Msg) (e : List RData)
    (_h1 : lookup T fuel1 s n t = some (.ok m s'))
    (h2 : dictFind2 s'.answer_cache n t = some e)
    (h3 : (if e = [] then ([] : List (List RData)) else [e]) = m.answer) :
    lookup T (fuel2 + 1) s' n t =
      some (.ok m { s' with nextId := s'.nextId + 1 }) := by
  have hc := lookup_cache_hit T fuel2 s' n t e h2
  rw [hc, h3]

/-- C6 counterexample: with www.example.com cached as an alias of
cdn.example.com, the response observed during the first lookup plants an
additional-section A record under www.example.com itself; the second
lookup returns that planted answer, which differs from the first result,
refuting identical results on repeated calls. -/
theorem claim6_cex : ∃ m1 s1 m2 s2,
    lookup T6 20 s6 n6 RType.A = some (.ok m1 s1) ∧
    lookup T6 20 s1 n6 RType.A = some (.ok m2 s2) ∧
    m1.answer = [[RData.addr "1.2.3.4"]] ∧
    m2.answer = [[RData.addr "9.9.9.9"]] ∧
    m1 ≠ m2 ∧ s2.trace = s1.trace := by
  refine ⟨_, _, _, _, rfl, rfl, ?_, ?_, ?_, ?_⟩ <;> decide

/-- Witness for C6 amended at a directly cached (name, type) pair. -/
theorem claim6_amended_witness :
    lookup deadTransport 1 { sW6 with nextId := 1 } exL RType.A =
      some (.ok { answer := [[RData.addr "1.2.3.4"]] }
        { sW6 with nextId := 2 }) :=
  claim6_amended_thm deadTransport 2 0 sW6 { sW6 with nextId := 1 } exL RType.A
    { answer := [[RData.addr "1.2.3.4"]] } [RData.addr "1.2.3.4"]
    (by decide) (by decide) (by decide)

/-- C8: from empty caches, the referral chain (root referral for com.
with glue, TLD referral for example.com with glue, authoritative answer
from ns1.example.com) completes with the authoritative answer in exactly
three transport round trips and leaves authority-cache entries for both
com. and example.com. -/
theorem claim8_thm :
    resOk (lookup T8 40 initState exL RType.A) = true ∧
    (resMsg (lookup T8 40 initState exL RType.A)).answer =
      [[RData.addr "93.184.216.34"]] ∧
    (resState (lookup T8 40 initState exL RType.A)).trace.length = 3 ∧
    dictFind (resState (lookup T8 40 initState exL RType.A)).authority_cache comL =
      some [gtldL] ∧
    dictFind (resState (lookup T8 40 initState exL RType.A)).authority_cache exL =
      some [ns1L] := by
  decide

/-- C10: a non-empty answer is only ever returned from a record-cache
read at the top of a later loop iteration; when the only candidate
answers the query correctly and the worklist then empties, lookup
overwrites the just-cached answer for (name, type) with the empty
negative marker and returns an empty answer. -/
theorem claim10_thm :
    T10 hostL RType.A "10.0.0.1" =
      .ok { answer := [⟨hostL, RType.A, [.addr "1.2.3.4"]⟩], authority := [],
            additional := [] } ∧
    resOk (lookup T10 40 s10 hostL RType.A) = true ∧
    resMsg (lookup T10 40 s10 hostL RType.A) = { answer := [] } ∧
    dictFind2 (resState (lookup T10 40 s10 hostL RType.A)).answer_cache hostL
      RType.A = some [] ∧
    (resState (lookup T10 40 s10 hostL RType.A)).trace =
      [{ callId := 0, qname := hostL, qtype := RType.A,
         server := "10.0.0.1" }] := by
  decide

/-- C9: names differing only in label case are equal for the
active-lookup set (dnspython Name equality) but the caches are keyed by
raw label tuples, so a record cached under EXAMPLE.com is invisible to a
lookup of example.com, which goes to the network and caches a separate
negative entry — the key equalities used by the caches and the active set
disagree. -/
theorem claim9_thm :
    nameEqb upE loE = true ∧
    activeMemb [upE] loE = true ∧
    dictFind s9.answer_cache upE = some [(RType.A, [RData.addr "9.9.9.9"])] ∧
    dictFind s9.answer_cache loE = none ∧
    resMsg (lookup deadTransport 20 s9 upE RType.A) =
      { answer := [[RData.addr "9.9.9.9"]] } ∧
    (resState (lookup deadTransport 20 s9 upE RType.A)).trace = [] ∧
    resOk (lookup deadTransport 20 s9 loE RType.A) = true ∧
    resMsg (lookup deadTransport 20 s9 loE RType.A) = { answer := [] } ∧
    (resState (lookup deadTransport 20 s9 loE RType.A)).trace.length = 13 := by
  decide

/-- C4 counterexample: with authority-cache entries for both com. and
example.com., seeding for host.example.com returns candidates from both
ancestor levels even though the nearer example.com. level has a cached
entry, refuting that candidates come only from the first (nearest) cached
ancestor zone level. -/
theorem claim4_cex :
    load_initial_servers_to_query s4 hostL =
      [(RType.CNAME, Cand.byName gtldL), (RType.CNAME, Cand.byName ns1L)] ∧
    levelCands s4 (hostL.drop 1) = [(RType.CNAME, Cand.byName ns1L)] ∧
    (RType.CNAME, Cand.byName gtldL) ∈ load_initial_servers_to_query s4 hostL := by
  refine ⟨by decide, by decide, by decide⟩

/-- C3: a popped `(CNAME, name)` candidate whose name is in the
active-lookup set is dropped — `resolve_dns_cname` returns the empty
address with the state untouched, and the query loop continues with the
remaining worklist — and on the concrete glue-less self-referential
delegation `lookup(host.x.com, A)` terminates with an empty answer. -/
theorem claim3_thm (lk : RState → Labels → RType → Option LOut) (T : Transport)
    (fuel myId : Nat) (s : RState) (server n : Labels) (t : RType)
    (rest : List (RType × Cand)) (queried : List String)
    (hactive : activeMemb s.active_lookups server = true)
    (hmiss : cacheCheck s.answer_cache n t = .miss) :
    resolve_dns_cnameF lk s server = some (.ok "" s) ∧
    queryLoopF lk T (fuel + 1) myId s n t
        ((RType.CNAME, Cand.byName server) :: rest) queried =
      queryLoopF lk T fuel myId s n t rest queried ∧
    resOk (lookup T3 100 initState xHostL RType.A) = true ∧
    resMsg (lookup T3 100 initState xHostL RType.A) = { answer := [] } := by
  have h1 : resolve_dns_cnameF lk s server = some (.ok "" s) := by
    simp [resolve_dns_cnameF, hactive]
  refine ⟨h1, ?_, by decide, by decide⟩
  simp [queryLoopF, hmiss, h1]

/-- Witness for C3 at a state whose active set contains ns.x.com. -/
theorem claim3_witness :
    resolve_dns_cnameF (fun _ _ _ => none) sW3 nsxL = some (.ok "" sW3) ∧
    queryLoopF (fun _ _ _ => none) deadTransport 1 0 sW3 xHostL RType.A
        [(RType.CNAME, Cand.byName nsxL)] [] =
      queryLoopF (fun _ _ _ => none) deadTransport 0 0 sW3 xHostL RType.A [] [] ∧
    resOk (lookup T3 100 initState xHostL RType.A) = true ∧
    resMsg (lookup T3 100 initState xHostL RType.A) = { answer := [] } :=
  claim3_thm (fun _ _ _ => none) deadTransport 0 0 sW3 nsxL xHostL RType.A [] []
    (by decide) (by decide)

theorem foldl_append_levelCands (s : RState) (l : List Labels)
    (acc : List (RType × Cand)) :
    l.foldl (fun acc d => acc ++ levelCands s d) acc =
      acc ++ (l.map (levelCands s)).flatten := by
  induction l generalizing acc with
  | nil => simp
  | cons d l ih => simp [ih]

theorem ancestorLevels_concat (n : Labels) (h : 3 ≤ n.length) :
    ∃ pre, ancestorLevels n = pre ++ [n.drop 1] := by
  unfold ancestorLevels
  obtain ⟨k, hk⟩ : ∃ k, n.length - 2 = k + 1 := ⟨n.length - 3, by omega⟩
  rw [hk, List.range_succ_eq_map]
  exact ⟨((List.map Nat.succ (List.range k)).reverse).map fun i => n.drop (i + 1),
    by simp⟩

/-- C4 amended: candidate seeding walks ancestor zones from the root-most
proper ancestor inward, collecting candidates from every cached level; the
nearest zone contributes the final block of the list, so the LIFO worklist
pops its candidates first, and the static root-hint list is used exactly
when the walk collects nothing. -/
theorem claim4_amended_thm (s : RState) (n : Labels) (h : 3 ≤ n.length) :
    load_initial_servers_to_query s n =
      (if collectLevels s n = [] then rootCands else collectLevels s n) ∧
    ∃ pre, collectLevels s n = pre ++ levelCands s (n.drop 1) := by
  constructor
  · show (if List.foldl (fun acc d => acc ++ levelCands s d) [] (ancestorLevels n) = []
        then rootCands
        else List.foldl (fun acc d => acc ++ levelCands s d) [] (ancestorLevels n)) = _
    rw [foldl_append_levelCands]
    simp [collectLevels]
  · obtain ⟨pre, hp⟩ := ancestorLevels_concat n h
    refine ⟨(pre.map (levelCands s)).flatten, ?_⟩
    unfold collectLevels
    rw [hp]
    simp

/-- Witness for C4 amended at the two-zone cached state. -/
theorem claim4_witness :
    (load_initial_servers_to_query s4 hostL =
      (if collectLevels s4 hostL = [] then rootCands else collectLevels s4 hostL)) ∧
    ∃ pre, collectLevels s4 hostL = pre ++ levelCands s4 (hostL.drop 1) :=
  claim4_amended_thm s4 hostL (by decide)

theorem addActive_nextId (s : RState) (n : Labels) :
    (addActive s n).nextId = s.nextId := by
  unfold addActive; split <;> rfl

theorem addActive_trace (s : RState) (n : Labels) :
    (addActive s n).trace = s.trace := by
  unfold addActive; split <;> rfl

theorem do_dns_query_state (T : Transport) (myId : Nat) (s : RState)
    (n : Labels) (t : RType) (srv : String) :
    (do_dns_query T myId s n t srv).1.nextId = s.nextId ∧
    (do_dns_query T myId s n t srv).1.trace =
      { callId := myId, qname := n, qtype := t, server := srv } :: s.trace := by
  unfold do_dns_query
  cases T n t srv <;> exact ⟨rfl, rfl⟩

theorem freshExt_refl (s : RState) : FreshExt s s :=
  ⟨le_refl _, [], rfl, by simp⟩

theorem loopExt_refl (myId : Nat) (s : RState) : LoopExt myId s s :=
  ⟨le_refl _, [], rfl, by simp⟩

theorem freshExt_to_loopExt {myId : Nat} {s s' : RState} (h : FreshExt s s') :
    LoopExt myId s s' := by
  obtain ⟨hle, new, htr, hids⟩ := h
  exact ⟨hle, new, htr, fun e he => Or.inr (hids e he)⟩

theorem loopExt_trans {myId : Nat} {s1 s2 s3 : RState}
    (h12 : LoopExt myId s1 s2) (h23 : LoopExt myId s2 s3) :
    LoopExt myId s1 s3 := by
  obtain ⟨hle12, new12, ht12, hid12⟩ := h12
  obtain ⟨hle23, new23, ht23, hid23⟩ := h23
  refine ⟨le_trans hle12 hle23, new23 ++ new12,
    by rw [ht23, ht12, List.append_assoc], ?_⟩
  intro e he
  rcases List.mem_append.mp he with h | h
  · rcases hid23 e h with h' | h'
    · exact Or.inl h'
    · exact Or.inr (le_trans hle12 h')
  · exact hid12 e h

theorem freshExt_of_nested {s s2 : RState} {server : Labels}
    (hlt : (addActive s server).nextId < s2.nextId)
    (new : List Ev) (htr : s2.trace = new ++ (addActive s server).trace)
    (hids : ∀ e ∈ new, (addActive s server).nextId ≤ e.callId) :
    FreshExt s s2 := by
  rw [addActive_nextId] at hlt
  rw [addActive_trace] at htr
  refine ⟨le_of_lt hlt, new, htr, fun e he => ?_⟩
  have h := hids e he
  rwa [addActive_nextId] at h

theorem resolve_fresh (lk : RState → Labels → RType → Option LOut)
    (hlk : FreshLk lk) (s : RState) (server : Labels) (c : COut)
    (h : resolve_dns_cnameF lk s server = some c) :
    FreshExt s (cState c) := by
  unfold resolve_dns_cnameF at h
  by_cases ha : activeMemb s.active_lookups server = true
  · rw [if_pos ha] at h
    cases h
    exact freshExt_refl s
  · rw [if_neg ha] at h
    cases hl : lk (addActive s server) server RType.A with
    | none => rw [hl] at h; exact absurd h (by simp)
    | some r =>
      rw [hl] at h
      obtain ⟨hlt, new, htr, hids⟩ := hlk _ _ _ _ hl
      cases r with
      | err s2 =>
        cases h
        exact freshExt_of_nested hlt new htr hids
      | ok m s2 =>
        dsimp only at h
        cases hm : m.answer with
        | nil =>
          rw [hm] at h
          cases h
          exact freshExt_of_nested hlt new htr hids
        | cons hd tl =>
          cases hd with
          | nil =>
            rw [hm] at h
            cases h
            exact freshExt_of_nested hlt new htr hids
          | cons d ds =>
            rw [hm] at h
            cases h
            exact freshExt_of_nested hlt new htr hids

theorem do_dns_query_loopExt (T : Transport) (myId : Nat) (s : RState)
    (n : Labels) (t : RType) (srv : String) :
    LoopExt myId s (do_dns_query T myId s n t srv).1 := by
  have h := do_dns_query_state T myId s n t srv
  refine ⟨le_of_eq h.1.symm, [{ callId := myId, qname := n, qtype := t, server := srv }],
    by rw [h.2]; rfl, ?_⟩
  intro e he
  simp at he
  subst he
  exact Or.inl rfl

theorem queryLoopF_fresh (lk : RState → Labels → RType → Option LOut)
    (T : Transport) (hlk : FreshLk lk) :
    ∀ fuel myId s n t wl q r,
      queryLoopF lk T fuel myId s n t wl q = some r →
      LoopExt myId s (LOut.state r) := by
  intro fuel
  induction fuel with
  | zero =>
    intro myId s n t wl q r h
    exact absurd h (by simp [queryLoopF])
  | succ f ih =>
    intro myId s n t wl q r h
    cases wl with
    | nil =>
      simp only [queryLoopF] at h
      cases h
      exact ⟨le_refl _, [], rfl, by simp⟩
    | cons hd rest =>
      obtain ⟨tag, c⟩ := hd
      simp only [queryLoopF] at h
      cases hcc : cacheCheck s.answer_cache n t with
      | hit e =>
        rw [hcc] at h
        dsimp only at h
        cases h
        exact loopExt_refl _ _
      | chase tgt =>
        rw [hcc] at h
        dsimp only at h
        cases hl : lk (addActive s n) tgt t with
        | none => rw [hl] at h; exact absurd h (by simp)
        | some r' =>
          rw [hl] at h
          obtain ⟨hlt, new, htr, hids⟩ := hlk _ _ _ _ hl
          cases r' with
          | err s2 =>
            cases h
            exact freshExt_to_loopExt (freshExt_of_nested hlt new htr hids)
          | ok m s2 =>
            cases h
            exact freshExt_to_loopExt (freshExt_of_nested hlt new htr hids)
      | chaseBad =>
        rw [hcc] at h
        dsimp only at h
        cases h
        exact loopExt_refl _ _
      | miss =>
        rw [hcc] at h
        dsimp only at h
        by_cases htag : tag = RType.CNAME
        · rw [if_pos htag] at h
          cases c with
          | byName nm =>
            dsimp only at h
            cases hr : resolve_dns_cnameF lk s nm with
            | none => rw [hr] at h; exact absurd h (by simp)
            | some cr =>
              rw [hr] at h
              cases cr with
              | err s2 =>
                cases h
                exact freshExt_to_loopExt (resolve_fresh lk hlk s nm _ hr)
              | ok addr s2 =>
                have hstep : LoopExt myId s s2 :=
                  freshExt_to_loopExt (resolve_fresh lk hlk s nm _ hr)
                dsimp only at h
                by_cases hz : addr = ""
                · rw [if_pos hz] at h
                  exact loopExt_trans hstep (ih myId s2 n t rest q r h)
                · rw [if_neg hz] at h
                  by_cases hmem : addr ∈ q
                  · rw [if_pos hmem] at h
                    exact loopExt_trans hstep (ih myId s2 n t rest q r h)
                  · rw [if_neg hmem] at h
                    have hq : LoopExt myId s2 (do_dns_query T myId s2 n t addr).1 :=
                      do_dns_query_loopExt T myId s2 n t addr
                    exact loopExt_trans hstep (loopExt_trans hq
                      (ih myId _ n t _ _ r h))
          | byAddr a =>
            dsimp only at h
            cases h
            exact loopExt_refl _ _
          | byEntry e =>
            dsimp only at h
            cases h
            exact loopExt_refl _ _
        · rw [if_neg htag] at h
          cases c with
          | byAddr addr =>
            dsimp only at h
            by_cases hmem : addr ∈ q
            · rw [if_pos hmem] at h
              exact ih myId s n t rest q r h
            · rw [if_neg hmem] at h
              have hq : LoopExt myId s (do_dns_query T myId s n t addr).1 :=
                do_dns_query_loopExt T myId s n t addr
              exact loopExt_trans hq (ih myId _ n t _ _ r h)
          | byName nm =>
            dsimp only at h
            cases h
            exact loopExt_refl _ _
          | byEntry e =>
            dsimp only at h
            cases h
            exact loopExt_refl _ _

theorem lookup_fresh (T : Transport) : ∀ fuel, FreshLk (lookup T fuel) := by
  intro fuel
  induction fuel with
  | zero =>
    intro s n t r h
    exact absurd h (by simp [lookup])
  | succ f ih =>
    intro s n t r h
    simp only [lookup] at h
    have hl := queryLoopF_fresh (lookup T f) T ih (f + 1) s.nextId
      { s with nextId := s.nextId + 1 } n t _ [] r h
    obtain ⟨hle, new, htr, hids⟩ := hl
    refine ⟨lt_of_lt_of_le (by simp) hle, new, htr, ?_⟩
    intro e he
    rcases hids e he with h' | h'
    · exact le_of_eq h'.symm
    · exact le_trans (Nat.le_succ _) h'

theorem countQ_append (tr1 tr2 : List Ev) (i : Nat) (a : String) :
    countQ (tr1 ++ tr2) i a = countQ tr1 i a + countQ tr2 i a := by
  unfold countQ
  rw [List.filter_append, List.length_append]

theorem countQ_zero_of_ids (tr : List Ev) (i : Nat) (a : String)
    (h : ∀ e ∈ tr, e.callId ≠ i) : countQ tr i a = 0 := by
  unfold countQ
  rw [List.length_eq_zero]
  rw [List.filter_eq_nil_iff]
  intro e he
  simp [h e he]

theorem countQ_cons (e : Ev) (tr : List Ev) (i : Nat) (a : String) :
    countQ (e :: tr) i a =
      (if e.callId = i ∧ e.server = a then 1 else 0) + countQ tr i a := by
  unfold countQ
  by_cases h : e.callId = i ∧ e.server = a
  · rw [if_pos h, List.filter_cons_of_pos (by simpa using h), List.length_cons]
    omega
  · rw [if_neg h, List.filter_cons_of_neg (by simpa using h)]
    omega

theorem countQ_freshExt {s s' : RState} (myId : Nat) (a : String)
    (hf : FreshExt s s') (hm : myId < s.nextId) :
    countQ s'.trace myId a = countQ s.trace myId a := by
  obtain ⟨_, new, htr, hids⟩ := hf
  rw [htr, countQ_append, countQ_zero_of_ids new myId a
    (fun e he => by have := hids e he; omega)]
  omega

theorem countQ_fresh_call (lk : RState → Labels → RType → Option LOut)
    (hlk : FreshLk lk) {s0 : RState} {x : Labels} {y : RType} {r : LOut}
    (h : lk s0 x y = some r) (myId : Nat) (a : String) (hm : myId < s0.nextId) :
    countQ (LOut.state r).trace myId a = countQ s0.trace myId a := by
  obtain ⟨_, new, htr, hids⟩ := hlk _ _ _ _ h
  rw [htr, countQ_append, countQ_zero_of_ids new myId a
    (fun e he => by have := hids e he; omega)]
  omega

theorem countS_append (q1 q2 : List String) (a : String) :
    countS (q1 ++ q2) a = countS q1 a + countS q2 a := by
  unfold countS
  rw [List.filter_append, List.length_append]

theorem countS_not_mem (q : List String) (a : String) (h : a ∉ q) :
    countS q a = 0 := by
  unfold countS
  rw [List.length_eq_zero, List.filter_eq_nil_iff]
  intro x hx
  simp only [decide_eq_true_eq]
  intro hxa
  exact h (hxa ▸ hx)

theorem countS_push (q : List String) (addr a : String) :
    countS (q ++ [addr]) a = countS q a + (if addr = a then 1 else 0) := by
  rw [countS_append]
  unfold countS
  by_cases h : addr = a <;> simp [h]

theorem count_query_step (T : Transport) (myId : Nat) (s2 : RState) (n : Labels)
    (t : RType) (addr : String) (q : List String) (a : String)
    (hc : countQ s2.trace myId a = countS q a)
    (hq : countS q a ≤ 1)
    (hmem : addr ∉ q) :
    countQ (do_dns_query T myId s2 n t addr).1.trace myId a =
      countS (q ++ [addr]) a ∧
    countS (q ++ [addr]) a ≤ 1 := by
  have hst := do_dns_query_state T myId s2 n t addr
  rw [hst.2, countQ_cons, countS_push]
  by_cases haeq : addr = a
  · subst haeq
    have h0 : countS q addr = 0 := countS_not_mem q addr hmem
    rw [hc, h0]
    simp
  · have hno : ¬(({ callId := myId, qname := n, qtype := t, server := addr } : Ev).callId = myId ∧
        ({ callId := myId, qname := n, qtype := t, server := addr } : Ev).server = a) := by
      simp [haeq]
    rw [if_neg hno, if_neg haeq]
    constructor
    · rw [hc]
      omega
    · omega

theorem queryLoopF_count (lk : RState → Labels → RType → Option LOut)
    (T : Transport) (hlk : FreshLk lk) (a : String) :
    ∀ fuel myId s n t wl q r,
      myId < s.nextId →
      countQ s.trace myId a = countS q a →
      countS q a ≤ 1 →
      queryLoopF lk T fuel myId s n t wl q = some r →
      countQ (LOut.state r).trace myId a ≤ 1 := by
  intro fuel
  induction fuel with
  | zero =>
    intro myId s n t wl q r _ _ _ h
    exact absurd h (by simp [queryLoopF])
  | succ f ih =>
    intro myId s n t wl q r hm hc hq h
    cases wl with
    | nil =>
      simp only [queryLoopF] at h
      cases h
      show countQ s.trace myId a ≤ 1
      rw [hc]; exact hq
    | cons hd rest =>
      obtain ⟨tag, c⟩ := hd
      simp only [queryLoopF] at h
      cases hcc : cacheCheck s.answer_cache n t with
      | hit e =>
        rw [hcc] at h
        dsimp only at h
        cases h
        show countQ s.trace myId a ≤ 1
        rw [hc]; exact hq
      | chase tgt =>
        rw [hcc] at h
        dsimp only at h
        cases hl : lk (addActive s n) tgt t with
        | none => rw [hl] at h; exact absurd h (by simp)
        | some r' =>
          rw [hl] at h
          have hm' : myId < (addActive s n).nextId := by
            rw [addActive_nextId]; exact hm
          have hcall := countQ_fresh_call lk hlk hl myId a hm'
          rw [addActive_trace] at hcall
          cases r' with
          | err s2 =>
            cases h
            show countQ s2.trace myId a ≤ 1
            have : countQ s2.trace myId a = countQ s.trace myId a := hcall
            rw [this, hc]; exact hq
          | ok m s2 =>
            cases h
            show countQ s2.trace myId a ≤ 1
            have : countQ s2.trace myId a = countQ s.trace myId a := hcall
            rw [this, hc]; exact hq
      | chaseBad =>
        rw [hcc] at h
        dsimp only at h
        cases h
        show countQ s.trace myId a ≤ 1
        rw [hc]; exact hq
      | miss =>
        rw [hcc] at h
        dsimp only at h
        by_cases htag : tag = RType.CNAME
        · rw [if_pos htag] at h
          cases c with
          | byName nm =>
            dsimp only at h
            cases hr : resolve_dns_cnameF lk s nm with
            | none => rw [hr] at h; exact absurd h (by simp)
            | some cr =>
              rw [hr] at h
              have hfr := resolve_fresh lk hlk s nm _ hr
              cases cr with
              | err s2 =>
                cases h
                show countQ s2.trace myId a ≤ 1
                have : countQ (cState (.err s2)).trace myId a =
                    countQ s.trace myId a := countQ_freshExt myId a hfr hm
                rw [show countQ s2.trace myId a =
                    countQ (cState (.err s2)).trace myId a from rfl, this, hc]
                exact hq
              | ok addr s2 =>
                have hm2 : myId < s2.nextId := lt_of_lt_of_le hm hfr.1
                have hc2 : countQ s2.trace myId a = countS q a := by
                  have := countQ_freshExt myId a hfr hm
                  rw [show countQ s2.trace myId a =
                      countQ (cState (.ok addr s2)).trace myId a from rfl, this, hc]
                dsimp only at h
                by_cases hz : addr = ""
                · rw [if_pos hz] at h
                  exact ih myId s2 n t rest q r hm2 hc2 hq h
                · rw [if_neg hz] at h
                  by_cases hmem : addr ∈ q
                  · rw [if_pos hmem] at h
                    exact ih myId s2 n t rest q r hm2 hc2 hq h
                  · rw [if_neg hmem] at h
                    have hcq := count_query_step T myId s2 n t addr q a hc2 hq hmem
                    have hm3 : myId < (do_dns_query T myId s2 n t addr).1.nextId := by
                      rw [(do_dns_query_state T myId s2 n t addr).1]
                      exact hm2
                    exact ih myId _ n t _ _ r hm3 hcq.1 hcq.2 h
          | byAddr addr =>
            dsimp only at h
            cases h
            show countQ s.trace myId a ≤ 1
            rw [hc]; exact hq
          | byEntry e =>
            dsimp only at h
            cases h
            show countQ s.trace myId a ≤ 1
            rw [hc]; exact hq
        · rw [if_neg htag] at h
          cases c with
          | byAddr addr =>
            dsimp only at h
            by_cases hmem : addr ∈ q
            · rw [if_pos hmem] at h
              exact ih myId s n t rest q r hm hc hq h
            · rw [if_neg hmem] at h
              have hcq := count_query_step T myId s n t addr q a hc hq hmem
              have hm3 : myId < (do_dns_query T myId s n t addr).1.nextId := by
                rw [(do_dns_query_state T myId s n t addr).1]
                exact hm
              exact ih myId _ n t _ _ r hm3 hcq.1 hcq.2 h
          | byName nm =>
            dsimp only at h
            cases h
            show countQ s.trace myId a ≤ 1
            rw [hc]; exact hq
          | byEntry e =>
            dsimp only at h
            cases h
            show countQ s.trace myId a ≤ 1
            rw [hc]; exact hq

/-- C7: within a single lookup activation the transport adapter is
invoked at most once per literal server address: every queried address is
recorded in the per-call dedup history checked before each query, so the
events of one activation contain each address at most once. -/
theorem claim7_thm (T : Transport) (fuel : Nat) (s : RState) (n : Labels)
    (t : RType) (m : Msg) (s' : RState) (a : String)
    (hwf : idsBelow s.trace s.nextId)
    (h : lookup T fuel s n t = some (.ok m s')) :
    countQ s'.trace s.nextId a ≤ 1 := by
  cases fuel with
  | zero => exact absurd h (by simp [lookup])
  | succ f =>
    simp only [lookup] at h
    have hm : s.nextId < ({ s with nextId := s.nextId + 1 } : RState).nextId := by
      simp
    have hc : countQ ({ s with nextId := s.nextId + 1 } : RState).trace s.nextId a
        = countS [] a := by
      show countQ s.trace s.nextId a = countS [] a
      rw [countQ_zero_of_ids s.trace s.nextId a
        (fun e he => Nat.ne_of_lt (hwf e he))]
      rfl
    exact queryLoopF_count (lookup T f) T (lookup_fresh T f) a (f + 1) s.nextId
      { s with nextId := s.nextId + 1 } n t _ [] (.ok m s') hm hc
      (by simp [countS]) h

/-- Witness for C7 on the three-step referral-chain run. -/
theorem claim7_witness :
    idsBelow initState.trace initState.nextId ∧
    countQ (resState (lookup T8 40 initState exL RType.A)).trace initState.nextId
      "10.0.0.1" ≤ 1 := by
  have hwf : idsBelow initState.trace initState.nextId :=
    fun e he => absurd he (by simp [initState])
  refine ⟨hwf, ?_⟩
  have h : lookup T8 40 initState exL RType.A =
      some (.ok (resMsg (lookup T8 40 initState exL RType.A))
        (resState (lookup T8 40 initState exL RType.A))) := by decide
  exact claim7_thm T8 40 initState exL RType.A _ _ "10.0.0.1" hwf h
